import Mathlib

/-!
Shallow embedding of the message-verification, dispatch and fee-market
payment logic of the darwinia bridge-substrate repository, together with
proofs about the embedded definitions.

Sources embedded here:
* `runtime-common/src/messages.rs` — `verify_messages_proof_with_parser`
* `modules/dispatch/src/lib.rs` — `Pallet::dispatch`, `verify_message_origin`
* `modules/fee-market/src/s2s/payment.rs` — `slash_and_calculate_rewards`,
  `cal_rewards_before_deadline`, `cal_reward_after_deadline`,
  `slash_assigned_relayer`, `RewardItem`, `RewardsBook`
* `modules/ethereum-clique-variant/src/verification.rs` —
  `accept_clique_header_into_pool` (future-number bound) and the
  `validate_unsigned` error classification from the module's `lib.rs`.

Machine integers (u32/u64 nonces, balances, weights, block numbers) are
modelled as `Nat`; the code under embedding uses `saturating_sub` /
`saturating_add` or is otherwise overflow-free at the points that matter,
and `Nat` subtraction is exactly saturating subtraction.
-/

namespace BridgeSpec

abbrev AccountId := Nat
abbrev ChainId := Nat
abbrev RawBytes := List Nat

/-! ### Proof verifier (`runtime-common/src/messages.rs`) -/

/-- Error type of `verify_messages_proof_with_parser`
(`MessageProofError` in `runtime-common/src/messages.rs`). -/
inductive MessageProofError
  | Empty
  | MessagesCountMismatch
  | MissingRequiredMessage
  | FailedToDecodeMessage
  | FailedToDecodeOutboundLaneState
  | Custom (code : Nat)
  deriving DecidableEq, Repr

/-- The `MessageProofParser` trait: raw reads from the storage proof.
The Rust trait takes a lane id / message key; the verifier only ever
queries the single lane of the proof, so the lane argument is dropped and
the message read is keyed by nonce alone. -/
structure ProofReader where
  readRawMessage : Nat → Option RawBytes
  readRawOutboundLaneData : Option RawBytes

/-- The inclusive nonce range `nonces_start..=nonces_end` iterated by the
verifier's message-reading loop (empty when `e < s`). -/
def nonceRange (s e : Nat) : List Nat :=
  List.range' s (e + 1 - s)

/-- The message-reading loop of `verify_messages_proof_with_parser`
(lines 804-814 of `messages.rs`): each nonce must have a raw value in the
proof (`MissingRequiredMessage` otherwise) and that value must decode
(`FailedToDecodeMessage` otherwise); decoded messages are accumulated in
nonce order.  `decMsg` stands for `MessageData::decode`. -/
def readMessages {MD : Type} (read : Nat → Option RawBytes)
    (decMsg : RawBytes → Option MD) :
    List Nat → Except MessageProofError (List (Nat × MD))
  | [] => .ok []
  | n :: ns =>
    match read n with
    | none => .error .MissingRequiredMessage
    | some raw =>
      match decMsg raw with
      | none => .error .FailedToDecodeMessage
      | some md =>
        match readMessages read decMsg ns with
        | .error e => .error e
        | .ok rest => .ok ((n, md) :: rest)

/-- Everything `verify_messages_proof_with_parser` does after the
messages-count check: build the parser, read and decode every message in
the nonce range, optionally read and decode the outbound lane state
(a missing lane-state value is ignored, a present but undecodable one is
fatal), and reject totally empty proofs.  `decLane` stands for
`OutboundLaneData::decode`. -/
def verifyMessagesAfterCountCheck {MD LS : Type}
    (build : Except MessageProofError ProofReader)
    (decMsg : RawBytes → Option MD) (decLane : RawBytes → Option LS)
    (noncesStart noncesEnd : Nat) :
    Except MessageProofError (List (Nat × MD) × Option LS) :=
  match build with
  | .error e => .error e
  | .ok reader =>
    match readMessages reader.readRawMessage decMsg (nonceRange noncesStart noncesEnd) with
    | .error e => .error e
    | .ok messages =>
      match reader.readRawOutboundLaneData with
      | some raw =>
        match decLane raw with
        | none => .error .FailedToDecodeOutboundLaneState
        | some ls => .ok (messages, some ls)
      | none =>
        if messages.isEmpty then .error .Empty
        else .ok (messages, none)

/-- `verify_messages_proof_with_parser` (`messages.rs` lines 765-837).
When `nonces_end ≥ nonces_start` (`checked_sub` succeeds) the claimed
message count must equal `nonces_end - nonces_start + 1`, otherwise the
proof is treated as carrying zero messages and the count check is
skipped.  The storage proof and lane are abstracted by `build` (the
`build_parser` closure). -/
def verifyMessagesProofWithParser {MD LS : Type}
    (build : Except MessageProofError ProofReader)
    (decMsg : RawBytes → Option MD) (decLane : RawBytes → Option LS)
    (noncesStart noncesEnd : Nat) (messagesCount : Nat) :
    Except MessageProofError (List (Nat × MD) × Option LS) :=
  if noncesStart ≤ noncesEnd then
    if noncesEnd - noncesStart + 1 ≠ messagesCount then
      .error .MessagesCountMismatch
    else
      verifyMessagesAfterCountCheck build decMsg decLane noncesStart noncesEnd
  else
    verifyMessagesAfterCountCheck build decMsg decLane noncesStart noncesEnd

/-! ### Fee-market payment (`modules/fee-market/src/s2s/payment.rs`) -/

/-- A `PerThing` configuration fraction (`Permill`-style): `num` parts out
of `den`.  Multiplication by a balance is modelled as rational
multiplication with floor rounding. -/
structure Ratio where
  num : Nat
  den : Nat
  deriving DecidableEq, Repr

/-- Ratio-by-balance multiplication (`ratio * balance` in sp-arithmetic). -/
def Ratio.mul (r : Ratio) (x : Nat) : Nat :=
  r.num * x / r.den

/-- A well-formed configuration ratio: a fraction in `[0, 1]`. -/
def Ratio.Wf (r : Ratio) : Prop :=
  0 < r.den ∧ r.num ≤ r.den

/-- The mutable chain state touched by the slashing path: each relayer's
recorded locked collateral (the pallet storage read by
`relayer_locked_collateral` and written by `update_relayer_after_slash`)
and the free balances moved by `Currency::transfer`. -/
structure PaymentState where
  collateral : AccountId → Nat
  free : AccountId → Nat

/-- `Currency::transfer` with `ExistenceRequirement::AllowDeath`:
succeeds exactly when the payer's free balance covers the amount
(existential-deposit bookkeeping is not modelled). -/
def PaymentState.transfer (st : PaymentState) (src dst : AccountId)
    (amount : Nat) : Option PaymentState :=
  if amount ≤ st.free src then
    some { st with free := (fun a =>
      if a = src then st.free src - amount
      else if a = dst then st.free dst + amount
      else st.free a) }
  else none

/-- Overwrite one relayer's recorded locked collateral
(`update_relayer_after_slash`; the slash report itself is not modelled). -/
def PaymentState.setCollateral (st : PaymentState) (who : AccountId)
    (v : Nat) : PaymentState :=
  { st with collateral := fun a => if a = who then v else st.collateral a }

/-- Modelled from the spec: an assigned-relayer slot of an order (the
fee-market `Order` type is not under `src/`); the spec describes "ordered
assigned-relayer slots with per-slot deadline". -/
structure AssignedRelayer where
  id : AccountId
  deadline : Nat
  deriving DecidableEq, Repr

/-- Modelled from the spec: the fee-market `Order` record (not under
`src/`): the message `fee`, the ordered assigned-relayer slots
(`relayers_slice`), the `locked_collateral` recorded in the order, the
confirmation time set by `OnDeliveryConfirmed`, and the base fee (a
"configured ratio of total fee" per the spec, hence intended to satisfy
`base_fee ≤ fee`). -/
structure Order where
  fee : Nat
  relayers : List AssignedRelayer
  locked_collateral : Nat
  confirm_time : Option Nat
  base_fee : Nat
  deriving DecidableEq, Repr

/-- Modelled from the spec: `Order::delivery_info` (not under `src/`) —
the slot whose delivery window is active at the confirmation time, i.e.
the first slot whose deadline has not yet passed, together with that
slot's relayer and the order's base fee; `none` when every slot deadline
has passed (delivery out of deadline). -/
def Order.delivery_info (o : Order) (t : Nat) :
    Option (Nat × AccountId × Nat) :=
  match o.relayers.findIdx? (fun r => t ≤ r.deadline) with
  | some i => some (i, ((o.relayers.get? i).map AssignedRelayer.id).getD 0, o.base_fee)
  | none => none

/-- Modelled from the spec: `Order::delivery_delay` (not under `src/`) —
how far past the last slot deadline the order was confirmed; `none` when
confirmed in time or when no confirmation time is recorded. -/
def Order.delivery_delay (o : Order) : Option Nat :=
  match o.confirm_time, (o.relayers.map AssignedRelayer.deadline).max? with
  | some t, some d => if d < t then some (t - d) else none
  | _, _ => none

/-- The fee-market pallet configuration consumed by the payment code: the
four configured ratios, the delay slasher `T::Slasher::cal_slash_amount`,
the optional slash-protection ceiling
(`collateral_slash_protect`) and the current block number (used when an
order has no recorded confirmation time). -/
structure FeeMarketConfig where
  assignedRelayerSlashRatio : Ratio
  assignedRelayersRewardRatio : Ratio
  messageRelayersRewardRatio : Ratio
  confirmRelayersRewardRatio : Ratio
  slasher : Nat → Nat → Nat
  collateralSlashProtect : Option Nat
  currentBlock : Nat

/-- `RewardItem` (payment.rs lines 352-369). -/
structure RewardItem where
  to_slot_relayer : Option (AccountId × Nat)
  to_treasury : Option Nat
  to_message_relayer : Option (AccountId × Nat)
  to_confirm_relayer : Option (AccountId × Nat)
  deriving DecidableEq, Repr

/-- `RewardItem::new`. -/
def RewardItem.new : RewardItem := ⟨none, none, none, none⟩

/-- `slash_assigned_relayer` (payment.rs lines 288-325): read the
relayer's recorded locked collateral, try to transfer `amount` to the
relayer fund account; on success record the collateral reduced by
`amount` and return `amount`; on failure the error is only logged, the
collateral is rewritten unchanged, and zero is returned. -/
def slash_assigned_relayer (st : PaymentState) (who fundAccount : AccountId)
    (amount : Nat) : Nat × PaymentState :=
  let lockedCollateral := st.collateral who
  match st.transfer who fundAccount amount with
  | some st' => (amount, st'.setCollateral who (lockedCollateral - amount))
  | none => (0, st.setCollateral who lockedCollateral)

/-- `cal_rewards_before_deadline` (payment.rs lines 244-269): the fee
minus the base fee goes to the treasury; `AssignedRelayersRewardRatio` of
the base fee goes to the slot relayer; the rest of the base fee is split
between the message and confirmation relayers per their ratios. -/
def cal_rewards_before_deadline (cfg : FeeMarketConfig)
    (slotRelayerId messageRelayerId confirmRelayerId : AccountId)
    (totalReward baseFee : Nat) (item : RewardItem) : RewardItem :=
  let slotRelayerReward := cfg.assignedRelayersRewardRatio.mul baseFee
  let bridgerRelayersReward := baseFee - slotRelayerReward
  let messageReward := cfg.messageRelayersRewardRatio.mul bridgerRelayersReward
  let confirmReward := cfg.confirmRelayersRewardRatio.mul bridgerRelayersReward
  { item with
    to_treasury := some (totalReward - baseFee)
    to_slot_relayer := some (slotRelayerId, slotRelayerReward)
    to_message_relayer := some (messageRelayerId, messageReward)
    to_confirm_relayer := some (confirmRelayerId, confirmReward) }

/-- `cal_reward_after_deadline` (payment.rs lines 272-285): the whole
pool is split between the message and confirmation relayers only. -/
def cal_reward_after_deadline (cfg : FeeMarketConfig)
    (messageRelayerId confirmRelayerId : AccountId)
    (totalReward : Nat) (item : RewardItem) : RewardItem :=
  { item with
    to_message_relayer := some (messageRelayerId, cfg.messageRelayersRewardRatio.mul totalReward)
    to_confirm_relayer := some (confirmRelayerId, cfg.confirmRelayersRewardRatio.mul totalReward) }

/-- The prior-slot slashing loop of the `relayer_index >= 1` branch
(payment.rs lines 173-182): each lazy relayer is slashed
`AssignedRelayerSlashRatio` of its currently recorded locked collateral
and whatever was actually slashed is added to the reward pool.  The
accumulator is the Rust mutable `total_reward`. -/
def slashLazyRelayersLoop (cfg : FeeMarketConfig) (fundAccount : AccountId) :
    List AssignedRelayer → Nat → PaymentState → Nat × PaymentState
  | [], totalReward, st => (totalReward, st)
  | r :: rest, totalReward, st =>
    let res := slash_assigned_relayer st r.id fundAccount
      (cfg.assignedRelayerSlashRatio.mul (st.collateral r.id))
    slashLazyRelayersLoop cfg fundAccount rest (totalReward + res.1) res.2

/-- The out-of-deadline slashing loop (payment.rs lines 196-219).  The
accumulators are the two Rust mutables: `slash_amount`, which keeps
growing across relayers because it is declared outside the loop (and is
re-clamped to the slash-protection ceiling on every round), and
`total_reward`. -/
def slashAllRelayersLoop (cfg : FeeMarketConfig) (fundAccount : AccountId) :
    List AssignedRelayer → Nat → Nat → PaymentState →
    Nat × PaymentState
  | [], _, totalReward, st => (totalReward, st)
  | r :: rest, slashAmount, totalReward, st =>
    let slashAmount := slashAmount + cfg.assignedRelayerSlashRatio.mul (st.collateral r.id)
    let slashAmount := match cfg.collateralSlashProtect with
      | some protect => min slashAmount protect
      | none => slashAmount
    let res := slash_assigned_relayer st r.id fundAccount slashAmount
    slashAllRelayersLoop cfg fundAccount rest slashAmount (totalReward + res.1) res.2

/-- The body of `slash_and_calculate_rewards` for one order (payment.rs
lines 145-236).  Returns the order's `RewardItem` (the payload of the
emitted `OrderReward` event), the collateral actually slashed while
processing this order, and the updated state.  In the
`relayer_index >= 1` branch the Rust code slashes
`order.relayers_slice().into_iter().take(relayer_index - 1)`. -/
def slashAndCalcOrder (cfg : FeeMarketConfig)
    (fundAccount messageRelayer confirmRelayer : AccountId) (order : Order)
    (st : PaymentState) : RewardItem × Nat × PaymentState :=
  let orderConfirmTime := order.confirm_time.getD cfg.currentBlock
  let totalReward := order.fee
  match order.delivery_info orderConfirmTime with
  | some (0, slotRelayerId, baseFee) =>
    (cal_rewards_before_deadline cfg slotRelayerId messageRelayer confirmRelayer
      totalReward baseFee RewardItem.new, 0, st)
  | some (Nat.succ k, slotRelayerId, baseFee) =>
    let lazyRelayers := order.relayers.take ((Nat.succ k) - 1)
    let res := slashLazyRelayersLoop cfg fundAccount lazyRelayers totalReward st
    (cal_rewards_before_deadline cfg slotRelayerId messageRelayer confirmRelayer
      res.1 baseFee RewardItem.new, res.1 - totalReward, res.2)
  | none =>
    let initSlash := cfg.slasher order.locked_collateral (order.delivery_delay.getD 0)
    let res := slashAllRelayersLoop cfg fundAccount order.relayers initSlash totalReward st
    (cal_reward_after_deadline cfg messageRelayer confirmRelayer res.1
      RewardItem.new, res.1 - totalReward, res.2)

/-- `UnrewardedRelayer`: the relayer that delivered a nonce range,
restricted to the fields read by the payment code (`entry.relayer`,
`entry.messages.begin`, `entry.messages.end`). -/
structure UnrewardedRelayerEntry where
  relayer : AccountId
  messages_begin : Nat
  messages_end : Nat
  deriving DecidableEq, Repr

/-- The inner nonce loop of `slash_and_calculate_rewards` (payment.rs
lines 139-238): look up each order — a nonce with no stored order is
silently skipped — and process it.  Returns the emitted `RewardItem`s in
order, the sum of the processed orders' fees, the total collateral
actually slashed, and the final state. -/
def processNonces (cfg : FeeMarketConfig) (orders : Nat → Option Order)
    (fundAccount messageRelayer confirmRelayer : AccountId) :
    List Nat → PaymentState →
    List RewardItem × Nat × Nat × PaymentState
  | [], st => ([], 0, 0, st)
  | n :: ns, st =>
    match orders n with
    | none => processNonces cfg orders fundAccount messageRelayer confirmRelayer ns st
    | some order =>
      let res :=
        slashAndCalcOrder cfg fundAccount messageRelayer confirmRelayer order st
      let rest :=
        processNonces cfg orders fundAccount messageRelayer confirmRelayer ns res.2.2
      (res.1 :: rest.1, order.fee + rest.2.1, res.2.1 + rest.2.2.1, rest.2.2.2)

/-- The outer entry loop of `slash_and_calculate_rewards` (payment.rs
lines 135-239): each entry's delivered nonce range is clamped to the
received range and processed in order. -/
def processEntries (cfg : FeeMarketConfig) (orders : Nat → Option Order)
    (fundAccount confirmRelayer : AccountId)
    (rangeStart rangeEnd : Nat) :
    List UnrewardedRelayerEntry → PaymentState →
    List RewardItem × Nat × Nat × PaymentState
  | [], st => ([], 0, 0, st)
  | entry :: rest, st =>
    let nonceBegin := max entry.messages_begin rangeStart
    let nonceEnd := min entry.messages_end rangeEnd
    let res₁ :=
      processNonces cfg orders fundAccount entry.relayer confirmRelayer
        (nonceRange nonceBegin nonceEnd) st
    let res₂ :=
      processEntries cfg orders fundAccount confirmRelayer rangeStart rangeEnd
        rest res₁.2.2.2
    (res₁.1 ++ res₂.1, res₁.2.1 + res₂.2.1, res₁.2.2.1 + res₂.2.2.1, res₂.2.2.2)

/-- Insert-or-add into an association map
(`BTreeMap::entry().and_modify().or_insert` with `saturating_add`). -/
def addToMap : List (AccountId × Nat) → AccountId → Nat →
    List (AccountId × Nat)
  | [], id, v => [(id, v)]
  | (a, b) :: rest, id, v =>
    if a = id then (a, b + v) :: rest else (a, b) :: addToMap rest id v

/-- `RewardsBook` (payment.rs lines 372-388); the two `BTreeMap`s are
association lists. -/
structure RewardsBook where
  deliver_sum : List (AccountId × Nat)
  confirm_sum : Nat
  assigned_relayers_sum : List (AccountId × Nat)
  treasury_sum : Nat
  deriving DecidableEq, Repr

/-- `RewardsBook::new`. -/
def RewardsBook.new : RewardsBook := ⟨[], 0, [], 0⟩

/-- `RewardsBook::add_reward_item` (payment.rs lines 390-412). -/
def RewardsBook.add_reward_item (book : RewardsBook) (item : RewardItem) :
    RewardsBook :=
  let book := match item.to_slot_relayer with
    | some (id, reward) =>
      { book with assigned_relayers_sum := addToMap book.assigned_relayers_sum id reward }
    | none => book
  let book := match item.to_treasury with
    | some reward => { book with treasury_sum := book.treasury_sum + reward }
    | none => book
  let book := match item.to_message_relayer with
    | some (id, reward) =>
      { book with deliver_sum := addToMap book.deliver_sum id reward }
    | none => book
  match item.to_confirm_relayer with
  | some (_, reward) => { book with confirm_sum := book.confirm_sum + reward }
  | none => book

/-- `slash_and_calculate_rewards` (payment.rs lines 123-241): process all
entries, folding every emitted `RewardItem` into a `RewardsBook`.  Besides
the book the embedding returns the batch's observable effects: the
emitted `RewardItem`s in order, the sum of the processed orders' fees,
the collateral actually slashed, and the final state. -/
def slash_and_calculate_rewards (cfg : FeeMarketConfig)
    (orders : Nat → Option Order)
    (entries : List UnrewardedRelayerEntry)
    (confirmRelayer : AccountId) (rangeStart rangeEnd : Nat)
    (fundAccount : AccountId) (st : PaymentState) :
    RewardsBook × List RewardItem × Nat × Nat × PaymentState :=
  let res :=
    processEntries cfg orders fundAccount confirmRelayer rangeStart rangeEnd entries st
  (res.1.foldl RewardsBook.add_reward_item RewardsBook.new, res.1, res.2.1,
    res.2.2.1, res.2.2.2)

/-! ### Dispatch (`modules/dispatch/src/lib.rs`) -/

abbrev TargetPublic := Nat
abbrev TargetSignature := Nat
abbrev EncodedCall := List Nat

/-- `CallOrigin` of a message payload (`bp_message_dispatch`). -/
inductive CallOrigin
  | SourceRoot
  | TargetAccount (sourceAccountId : AccountId) (targetPublic : TargetPublic)
      (targetSignature : TargetSignature)
  | SourceAccount (sourceAccountId : AccountId)
  deriving DecidableEq, Repr

/-- `DispatchFeePayment` (`bp_runtime`). -/
inductive DispatchFeePayment
  | AtSourceChain
  | AtTargetChain
  deriving DecidableEq, Repr

/-- `MessagePayload` (`bp_message_dispatch`): spec version, declared
weight, call origin, fee-payment location and encoded call bytes.
`Weight` is modelled by its `ref_time` component, the only one this
dispatch code reads. -/
structure MessagePayload where
  spec_version : Nat
  weight : Nat
  origin : CallOrigin
  dispatch_fee_payment : DispatchFeePayment
  call : EncodedCall
  deriving DecidableEq, Repr

/-- `frame_system::RawOrigin` of the local chain (the `None` variant is
spelled `NoOrigin`). -/
inductive RawOrigin
  | Root
  | Signed (id : AccountId)
  | NoOrigin
  deriving DecidableEq, Repr

/-- `sp_runtime::traits::BadOrigin`. -/
inductive BadOrigin
  | badOrigin
  deriving DecidableEq, Repr

/-- `verify_message_origin` (dispatch lib.rs lines 413-448). -/
def verify_message_origin (senderOrigin : RawOrigin)
    (message : MessagePayload) : Except BadOrigin (Option AccountId) :=
  match message.origin with
  | .SourceRoot =>
    if senderOrigin = .Root then .ok none
    else .error .badOrigin
  | .TargetAccount sourceAccountId _ _ =>
    if senderOrigin = .Signed sourceAccountId then .ok (some sourceAccountId)
    else .error .badOrigin
  | .SourceAccount sourceAccountId =>
    if senderOrigin = .Signed sourceAccountId ∨ senderOrigin = .Root then
      .ok (some sourceAccountId)
    else .error .badOrigin

/-- `MessageDispatchResult` (`bp_messages`). -/
structure MessageDispatchResult where
  dispatch_result : Bool
  unspent_weight : Nat
  dispatch_fee_paid_during_dispatch : Bool
  deriving DecidableEq, Repr

/-- The event deposited by `Pallet::dispatch` (dispatch lib.rs `Event`),
with payloads trimmed to what the proofs inspect. -/
inductive DispatchEvent
  | MessageRejected
  | MessageVersionSpecMismatch (expected got : Nat)
  | MessageCallDecodeFailed
  | MessageSignatureMismatch
  | MessageCallValidateFailed
  | MessageWeightMismatch (expected got : Nat)
  | MessageDispatchPaymentFailed (account : AccountId) (weight : Nat)
  | MessageDispatched (ok : Bool)
  deriving DecidableEq, Repr

/-- Outcome of `call.dispatch(origin)` as consumed by
`extract_actual_weight` (dispatch lib.rs lines 396-405): success flag,
the post-dispatch `pays_fee` and the post-dispatch actual weight. -/
structure ExecOutcome where
  isOk : Bool
  paysFee : Bool
  actualWeight : Option Nat
  deriving DecidableEq, Repr

/-- The runtime environment of `Pallet::dispatch`: the local spec version
(`T::Version`), call decoding (`message.call.into()`), signature
verification of the account-ownership digest (over call, source account,
spec version and the two chain ids, against the target public key),
`into_account` on the target public key, the two derived accounts
(`derive_account_id` composed with `T::AccountIdConverter`), the call
validator, the call's pre-dispatch weight
(`get_dispatch_info().weight.ref_time()`) and call execution under the
derived origin (`T::IntoDispatchOrigin` is absorbed into `callValidate`
and `execute`, which take the derived account directly). -/
structure DispatchEnv (Call : Type) where
  specVersion : Nat
  intoCall : EncodedCall → Option Call
  verifySignature : TargetSignature → Call → AccountId → Nat → ChainId →
    ChainId → TargetPublic → Bool
  intoAccount : TargetPublic → AccountId
  rootAccount : ChainId → AccountId
  sourceAccount : ChainId → AccountId → AccountId
  callValidate : AccountId → AccountId → Call → Bool
  dispatchInfoWeight : Call → Nat
  execute : Call → AccountId → ExecOutcome

/-- Everything observable about one `Pallet::dispatch` run: the returned
`MessageDispatchResult`, the single deposited event, and whether the
`pay_dispatch_fee` callback was invoked, the call bytes were decoded and
the call was executed. -/
structure DispatchOutcome where
  result : MessageDispatchResult
  event : DispatchEvent
  payCalled : Bool
  decodeAttempted : Bool
  executed : Bool
  deriving DecidableEq, Repr

/-- `Pallet::dispatch` (dispatch lib.rs lines 195-393).  `message` is the
lane-level pre-validation result (`Err` modelled as `none`);
`payDispatchFee` is the `pay_dispatch_fee` callback (`true` = `Ok`). -/
def dispatch {Call : Type} (env : DispatchEnv Call)
    (payDispatchFee : AccountId → Nat → Bool)
    (sourceChain targetChain : ChainId) (relayerAccount : AccountId)
    (message : Option MessagePayload) : DispatchOutcome :=
  match message with
  | none =>
    { result := ⟨false, 0, false⟩, event := .MessageRejected,
      payCalled := false, decodeAttempted := false, executed := false }
  | some message =>
    let dispatchResult : MessageDispatchResult := ⟨false, message.weight, false⟩
    if message.spec_version ≠ env.specVersion then
      { result := dispatchResult,
        event := .MessageVersionSpecMismatch env.specVersion message.spec_version,
        payCalled := false, decodeAttempted := false, executed := false }
    else
      match env.intoCall message.call with
      | none =>
        { result := dispatchResult, event := .MessageCallDecodeFailed,
          payCalled := false, decodeAttempted := true, executed := false }
      | some call =>
        let originAccount? : Option AccountId :=
          match message.origin with
          | .SourceRoot => some (env.rootAccount sourceChain)
          | .TargetAccount srcId pub sig =>
            if env.verifySignature sig call srcId message.spec_version
                sourceChain targetChain pub then
              some (env.intoAccount pub)
            else none
          | .SourceAccount srcId => some (env.sourceAccount sourceChain srcId)
        match originAccount? with
        | none =>
          { result := dispatchResult, event := .MessageSignatureMismatch,
            payCalled := false, decodeAttempted := true, executed := false }
        | some originDerivedAccount =>
          if ¬ env.callValidate relayerAccount originDerivedAccount call then
            { result := dispatchResult, event := .MessageCallValidateFailed,
              payCalled := false, decodeAttempted := true, executed := false }
          else
            let expectedWeight := env.dispatchInfoWeight call
            if message.weight < expectedWeight then
              { result := dispatchResult,
                event := .MessageWeightMismatch expectedWeight message.weight,
                payCalled := false, decodeAttempted := true, executed := false }
            else
              let payAtTarget : Bool :=
                decide (message.dispatch_fee_payment = .AtTargetChain)
              if payAtTarget ∧
                  ¬ payDispatchFee originDerivedAccount message.weight then
                { result := dispatchResult,
                  event := .MessageDispatchPaymentFailed originDerivedAccount message.weight,
                  payCalled := true, decodeAttempted := true, executed := false }
              else
                let execOut := env.execute call originDerivedAccount
                let actualCallWeight :=
                  if execOut.paysFee then
                    min (execOut.actualWeight.getD expectedWeight) expectedWeight
                  else 0
                { result :=
                    { dispatch_result := execOut.isOk,
                      unspent_weight := message.weight - actualCallWeight,
                      dispatch_fee_paid_during_dispatch := payAtTarget },
                  event := .MessageDispatched execOut.isOk,
                  payCalled := payAtTarget, decodeAttempted := true,
                  executed := true }

/-! ### Clique header pool (`modules/ethereum-clique-variant`) -/

/-- The clique module's error type, restricted to the variants the
embedded code distinguishes; every other variant of the module's
`error::Error` (its `error.rs` is not under `src/`) is collapsed into
`Other` with its error code. -/
inductive CliqueError
  | AncientHeader
  | KnownHeader
  | UnsignedTooFarInTheFuture
  | Other (code : Nat)
  deriving DecidableEq, Repr

/-- `HeaderId` (`bp_eth_clique`): number and hash. -/
structure HeaderId where
  number : Nat
  hash : Nat
  deriving DecidableEq, Repr

/-- `CliqueHeader`, restricted to the fields the pool-acceptance path
reads; the header's own hash (the result of `compute_id`) is carried as a
field. -/
structure CliqueHeader where
  number : Nat
  hash : Nat
  parent_hash : Nat
  deriving DecidableEq, Repr

/-- `CliqueHeader::compute_id`. -/
def CliqueHeader.compute_id (h : CliqueHeader) : HeaderId :=
  ⟨h.number, h.hash⟩

/-- The `Storage` trait operations used by `is_importable_header` and
`accept_clique_header_into_pool`: the finalized block id, the best block
id and the known-header test (`storage.header(hash).is_some()`). -/
structure CliqueStorage where
  finalized_block : HeaderId
  best_block : HeaderId
  isKnownHeader : Nat → Bool

/-- `is_importable_header` (verification.rs lines 34-47): reject headers
not ahead of the finalized block (`AncientHeader`) and headers with a
known hash (`KnownHeader`). -/
def is_importable_header (storage : CliqueStorage) (header : CliqueHeader) :
    Except CliqueError (HeaderId × HeaderId) :=
  if header.number ≤ storage.finalized_block.number then .error .AncientHeader
  else if storage.isKnownHeader header.hash then .error .KnownHeader
  else .ok (header.compute_id, storage.finalized_block)

abbrev TransactionTag := List Nat

/-- `accept_clique_header_into_pool` (verification.rs lines 51-113).  The
contextless checks and the context/validator checks that follow the
future-number bound are abstracted as the `contextless` and
`contextChecks` parameters; the future-number bound itself
(`saturating_sub` against the best block, compared with
`max_future_number_difference`) is embedded literally. -/
def accept_clique_header_into_pool (storage : CliqueStorage)
    (maxFutureNumberDifference : Nat)
    (contextless : CliqueHeader → Except CliqueError Unit)
    (contextChecks : CliqueHeader →
      Except CliqueError (List TransactionTag × List TransactionTag))
    (header : CliqueHeader) :
    Except CliqueError (List TransactionTag × List TransactionTag) :=
  match is_importable_header storage header with
  | .error e => .error e
  | .ok _ =>
    match contextless header with
    | .error e => .error e
    | .ok _ =>
      let difference := header.number - storage.best_block.number
      if maxFutureNumberDifference < difference then
        .error .UnsignedTooFarInTheFuture
      else
        contextChecks header

/-- The unsigned-transaction verdict produced by `validate_unsigned`
(clique lib.rs lines 408-436): valid with its requires/provides tags,
unknown (a non-permanent rejection — the transaction is not banned), or
invalid (a permanent rejection). -/
inductive PoolVerdict
  | valid (requiresTags providesTags : List TransactionTag)
  | unknown (e : CliqueError)
  | invalid (e : CliqueError)
  deriving DecidableEq, Repr

/-- The error classification of `validate_unsigned` (clique lib.rs lines
417-433): acceptance yields a valid transaction,
`UnsignedTooFarInTheFuture` maps to `UnknownTransaction::Custom` (not
banned), every other error maps to `InvalidTransaction::Custom`. -/
def validate_unsigned_header (storage : CliqueStorage)
    (maxFutureNumberDifference : Nat)
    (contextless : CliqueHeader → Except CliqueError Unit)
    (contextChecks : CliqueHeader →
      Except CliqueError (List TransactionTag × List TransactionTag))
    (header : CliqueHeader) : PoolVerdict :=
  match accept_clique_header_into_pool storage maxFutureNumberDifference
      contextless contextChecks header with
  | .ok (requiresTags, providesTags) => .valid requiresTags providesTags
  | .error .UnsignedTooFarInTheFuture => .unknown .UnsignedTooFarInTheFuture
  | .error e => .invalid e

/-! ### Theorems: message origin (C3) -/

/-- C3: `verify_message_origin` accepts a payload whose descriptor is
`SourceRoot` only when the sender origin is `Root`; accepts
`TargetAccount(id, pub, sig)` only when the sender origin is
`Signed id` for exactly that `id`; accepts `SourceAccount id` only when
the sender origin is `Signed id` or `Root`; every other combination is
rejected with `BadOrigin`. -/
theorem C3_verify_message_origin (senderOrigin : RawOrigin)
    (message : MessagePayload) :
    ((∃ v, verify_message_origin senderOrigin message = .ok v) ↔
      ((message.origin = .SourceRoot ∧ senderOrigin = .Root) ∨
       (∃ id pub sig, message.origin = .TargetAccount id pub sig ∧
         senderOrigin = .Signed id) ∨
       (∃ id, message.origin = .SourceAccount id ∧
         (senderOrigin = .Signed id ∨ senderOrigin = .Root)))) ∧
    ((¬ ∃ v, verify_message_origin senderOrigin message = .ok v) →
      verify_message_origin senderOrigin message = .error .badOrigin) := by
  constructor
  · rcases message with ⟨sv, w, origin, dfp, call⟩
    cases origin with
    | SourceRoot =>
      cases senderOrigin <;> simp [verify_message_origin]
    | TargetAccount id pub sig =>
      rcases senderOrigin with _ | s | _ <;> simp [verify_message_origin]
      by_cases h : s = id <;> simp [h]
    | SourceAccount id =>
      rcases senderOrigin with _ | s | _ <;> simp [verify_message_origin]
      by_cases h : s = id <;> simp [h]
  · intro h
    cases hv : verify_message_origin senderOrigin message with
    | ok v => exact absurd ⟨v, hv⟩ h
    | error e => cases e; rfl

/-! ### Theorems: dispatch (C6, C10) -/

/-- C6: when the embedded spec version differs from the local runtime
spec version, `Pallet::dispatch` returns `dispatch_result = false` with
the unspent weight equal to the full declared weight and no fee paid,
deposits the `MessageVersionSpecMismatch` event, and neither decodes the
call bytes nor executes any call (nor invokes the fee callback). -/
theorem C6_spec_version_mismatch {Call : Type} (env : DispatchEnv Call)
    (payDispatchFee : AccountId → Nat → Bool)
    (sourceChain targetChain : ChainId) (relayerAccount : AccountId)
    (message : MessagePayload)
    (h : message.spec_version ≠ env.specVersion) :
    dispatch env payDispatchFee sourceChain targetChain relayerAccount
        (some message) =
      { result := ⟨false, message.weight, false⟩,
        event := .MessageVersionSpecMismatch env.specVersion message.spec_version,
        payCalled := false, decodeAttempted := false, executed := false } := by
  simp [dispatch, h]

/-- A concrete environment used to instantiate dispatch theorems. -/
def sampleEnv : DispatchEnv Unit :=
  { specVersion := 1
    intoCall := fun _ => some ()
    verifySignature := fun _ _ _ _ _ _ _ => true
    intoAccount := fun p => p
    rootAccount := fun _ => 100
    sourceAccount := fun _ a => a
    callValidate := fun _ _ _ => true
    dispatchInfoWeight := fun _ => 3
    execute := fun _ _ => ⟨true, true, some 3⟩ }

theorem C6_spec_version_mismatch_witness :
    dispatch sampleEnv (fun _ _ => true) 5 6 7
        (some ⟨2, 9, .SourceRoot, .AtSourceChain, []⟩) =
      { result := ⟨false, 9, false⟩,
        event := .MessageVersionSpecMismatch 1 2,
        payCalled := false, decodeAttempted := false, executed := false } :=
  C6_spec_version_mismatch sampleEnv (fun _ _ => true) 5 6 7
    ⟨2, 9, .SourceRoot, .AtSourceChain, []⟩ (by decide)

/-- C10: the `pay_dispatch_fee` callback is invoked only for
`AtTargetChain` messages that passed every earlier check (witnessed by
the deposited event being `MessageDispatchPaymentFailed` or
`MessageDispatched`, the two events that are only reachable after the
rejection, spec-version, decode, signature, validation and weight
checks); an `AtSourceChain` message never triggers the callback and
reports `dispatch_fee_paid_during_dispatch = false`; an `AtTargetChain`
message that reaches execution reports it `true`. -/
theorem C10_pay_dispatch_fee {Call : Type} (env : DispatchEnv Call)
    (payDispatchFee : AccountId → Nat → Bool)
    (sourceChain targetChain : ChainId) (relayerAccount : AccountId)
    (message : MessagePayload) :
    ((dispatch env payDispatchFee sourceChain targetChain relayerAccount
        (some message)).payCalled = true →
      message.dispatch_fee_payment = .AtTargetChain ∧
      ((∃ a w, (dispatch env payDispatchFee sourceChain targetChain
          relayerAccount (some message)).event =
            .MessageDispatchPaymentFailed a w) ∨
       (∃ ok, (dispatch env payDispatchFee sourceChain targetChain
          relayerAccount (some message)).event = .MessageDispatched ok))) ∧
    (message.dispatch_fee_payment = .AtSourceChain →
      (dispatch env payDispatchFee sourceChain targetChain relayerAccount
        (some message)).payCalled = false ∧
      (dispatch env payDispatchFee sourceChain targetChain relayerAccount
        (some message)).result.dispatch_fee_paid_during_dispatch = false) ∧
    (message.dispatch_fee_payment = .AtTargetChain →
      (dispatch env payDispatchFee sourceChain targetChain relayerAccount
        (some message)).executed = true →
      (dispatch env payDispatchFee sourceChain targetChain relayerAccount
        (some message)).result.dispatch_fee_paid_during_dispatch = true) := by
  rcases message with ⟨sv, w, origin, dfp, call⟩
  cases dfp <;>
    simp only [dispatch] <;>
    split <;>
    (try split) <;>
    (try split) <;>
    (try split) <;>
    (try split) <;>
    (try split) <;>
    simp_all

theorem C10_pay_dispatch_fee_witness :
    (dispatch sampleEnv (fun _ _ => true) 5 6 7
      (some ⟨1, 9, .SourceRoot, .AtSourceChain, []⟩)).payCalled = false ∧
    (dispatch sampleEnv (fun _ _ => true) 5 6 7
      (some ⟨1, 9, .SourceRoot, .AtSourceChain, []⟩)).result.dispatch_fee_paid_during_dispatch = false :=
  (C10_pay_dispatch_fee sampleEnv (fun _ _ => true) 5 6 7
    ⟨1, 9, .SourceRoot, .AtSourceChain, []⟩).2.1 rfl

/-! ### Theorems: clique header pool (C9) -/

/-- C9: for a header that passes the importability and contextless
checks, the future-number bound of `accept_clique_header_into_pool`
admits headers whose number exceeds the best known header number by at
most `max_future_number_difference` (the remaining checks then decide
acceptance), and rejects headers further ahead with
`UnsignedTooFarInTheFuture`, which `validate_unsigned` turns into a
non-permanent `UnknownTransaction` rejection rather than a ban. -/
theorem C9_future_number_bound (storage : CliqueStorage)
    (maxFutureNumberDifference : Nat)
    (contextless : CliqueHeader → Except CliqueError Unit)
    (contextChecks : CliqueHeader →
      Except CliqueError (List TransactionTag × List TransactionTag))
    (header : CliqueHeader)
    (hfin : storage.finalized_block.number < header.number)
    (hknown : storage.isKnownHeader header.hash = false)
    (hctx : contextless header = .ok ()) :
    (header.number - storage.best_block.number ≤ maxFutureNumberDifference →
      accept_clique_header_into_pool storage maxFutureNumberDifference
        contextless contextChecks header = contextChecks header) ∧
    (maxFutureNumberDifference < header.number - storage.best_block.number →
      accept_clique_header_into_pool storage maxFutureNumberDifference
        contextless contextChecks header = .error .UnsignedTooFarInTheFuture ∧
      validate_unsigned_header storage maxFutureNumberDifference
        contextless contextChecks header = .unknown .UnsignedTooFarInTheFuture) := by
  have h1 : ¬ header.number ≤ storage.finalized_block.number := Nat.not_le.mpr hfin
  constructor
  · intro hle
    simp [accept_clique_header_into_pool, is_importable_header, h1, hknown,
      hctx, Nat.not_lt.mpr hle]
  · intro hgt
    have hacc : accept_clique_header_into_pool storage maxFutureNumberDifference
        contextless contextChecks header = .error .UnsignedTooFarInTheFuture := by
      simp [accept_clique_header_into_pool, is_importable_header, h1, hknown,
        hctx, hgt]
    exact ⟨hacc, by simp [validate_unsigned_header, hacc]⟩

/-- Concrete clique storage for the scenario: best known header number
100, finalized header number 0, no known hashes. -/
def cliqueStorageScenario : CliqueStorage :=
  { finalized_block := ⟨0, 0⟩, best_block := ⟨100, 5⟩,
    isKnownHeader := fun _ => false }

theorem C9_future_number_bound_witness :
    accept_clique_header_into_pool cliqueStorageScenario 10 (fun _ => .ok ())
      (fun _ => .ok ([], [])) ⟨110, 42, 5⟩ = .ok ([], []) ∧
    validate_unsigned_header cliqueStorageScenario 10 (fun _ => .ok ())
      (fun _ => .ok ([], [])) ⟨111, 43, 5⟩ =
      .unknown .UnsignedTooFarInTheFuture :=
  ⟨by
    rw [(C9_future_number_bound cliqueStorageScenario 10 (fun _ => .ok ())
      (fun _ => .ok ([], [])) ⟨110, 42, 5⟩ (by decide) rfl rfl).1 (by decide)],
   ((C9_future_number_bound cliqueStorageScenario 10 (fun _ => .ok ())
      (fun _ => .ok ([], [])) ⟨111, 43, 5⟩ (by decide) rfl rfl).2
      (by decide)).2⟩

/-! ### Theorems: slashing transfer failure (C8) -/

/-- C8: a failed collateral transfer in `slash_assigned_relayer` is not
fatal: the function returns zero — so the batch's reward pool gains
nothing instead of the intended slash amount — it rewrites the relayer's
recorded collateral unchanged and moves no funds; a successful transfer
returns the full amount and reduces the recorded collateral by exactly
the transferred amount. -/
theorem C8_slash_transfer_failure (st : PaymentState)
    (who fundAccount : AccountId) (amount : Nat) :
    (amount ≤ st.free who →
      (slash_assigned_relayer st who fundAccount amount).1 = amount ∧
      (slash_assigned_relayer st who fundAccount amount).2.collateral who =
        st.collateral who - amount) ∧
    (st.free who < amount →
      (slash_assigned_relayer st who fundAccount amount).1 = 0 ∧
      (slash_assigned_relayer st who fundAccount amount).2.collateral =
        st.collateral ∧
      (slash_assigned_relayer st who fundAccount amount).2.free = st.free) := by
  constructor
  · intro h
    simp [slash_assigned_relayer, PaymentState.transfer,
      PaymentState.setCollateral, h]
  · intro h
    have h' : ¬ amount ≤ st.free who := Nat.not_le.mpr h
    refine ⟨?_, ?_, ?_⟩ <;>
      simp [slash_assigned_relayer, PaymentState.transfer,
        PaymentState.setCollateral, h']
    funext a
    by_cases ha : a = who <;> simp [ha]

/-- Concrete state for slashing witnesses: relayer 1 has recorded
collateral 100 but only 10 free, so a 20-unit slash transfer fails. -/
def poorRelayerState : PaymentState :=
  { collateral := fun _ => 100, free := fun a => if a = 1 then 10 else 0 }

theorem C8_slash_transfer_failure_witness :
    (slash_assigned_relayer poorRelayerState 1 0 20).1 = 0 ∧
    (slash_assigned_relayer poorRelayerState 1 0 20).2.collateral =
      poorRelayerState.collateral ∧
    (slash_assigned_relayer poorRelayerState 1 0 20).2.free =
      poorRelayerState.free :=
  (C8_slash_transfer_failure poorRelayerState 1 0 20).2 (by decide)

/-! ### Theorems: slot-0 reward split (C5) -/

/-- C5: an order confirmed during the first assigned relayer's slot
(`relayer_index = 0`) slashes nobody and leaves the state untouched, and
its reward item is exactly: `fee - base_fee` to the treasury,
`AssignedRelayersRewardRatio * base_fee` to the slot relayer, and the
remainder of `base_fee` split between the message and confirmation
relayers per the configured ratios. -/
theorem C5_slot_zero_split (cfg : FeeMarketConfig)
    (fundAccount messageRelayer confirmRelayer : AccountId) (order : Order)
    (st : PaymentState) (slotRelayerId : AccountId) (baseFee : Nat)
    (hinfo : order.delivery_info (order.confirm_time.getD cfg.currentBlock) =
      some (0, slotRelayerId, baseFee)) :
    slashAndCalcOrder cfg fundAccount messageRelayer confirmRelayer order st =
      ({ to_slot_relayer :=
           some (slotRelayerId, cfg.assignedRelayersRewardRatio.mul baseFee),
         to_treasury := some (order.fee - baseFee),
         to_message_relayer :=
           some (messageRelayer, cfg.messageRelayersRewardRatio.mul
             (baseFee - cfg.assignedRelayersRewardRatio.mul baseFee)),
         to_confirm_relayer :=
           some (confirmRelayer, cfg.confirmRelayersRewardRatio.mul
             (baseFee - cfg.assignedRelayersRewardRatio.mul baseFee)) },
       0, st) := by
  simp only [slashAndCalcOrder, hinfo]
  simp [cal_rewards_before_deadline, RewardItem.new]

/-- Configuration for the fee split scenario: 50% slot-relayer ratio,
80%/20% message/confirm split. -/
def scenarioConfig : FeeMarketConfig :=
  { assignedRelayerSlashRatio := ⟨1, 2⟩
    assignedRelayersRewardRatio := ⟨1, 2⟩
    messageRelayersRewardRatio := ⟨4, 5⟩
    confirmRelayersRewardRatio := ⟨1, 5⟩
    slasher := fun _ _ => 0
    collateralSlashProtect := none
    currentBlock := 0 }

/-- The scenario order: fee 100, base fee 40, one assigned relayer
(account 7, slot deadline 10), confirmed at block 5 — inside slot 0. -/
def scenarioOrder : Order :=
  { fee := 100, relayers := [⟨7, 10⟩], locked_collateral := 0,
    confirm_time := some 5, base_fee := 40 }

/-- An all-zero payment state. -/
def zeroState : PaymentState := { collateral := fun _ => 0, free := fun _ => 0 }

theorem C5_slot_zero_split_witness :
    slashAndCalcOrder scenarioConfig 0 8 9 scenarioOrder zeroState =
      ({ to_slot_relayer := some (7, 20),
         to_treasury := some 60,
         to_message_relayer := some (8, 16),
         to_confirm_relayer := some (9, 4) },
       0, zeroState) :=
  C5_slot_zero_split scenarioConfig 0 8 9 scenarioOrder zeroState 7 40 (by decide)

/-! ### Theorems: slot-k slashing (C1) -/

/-- The failing batch for the prior-slot slashing claim: fee 100, two
assigned relayers — account 1 (slot deadline 10) and account 2 (slot
deadline 20) — confirmed at block 15, i.e. during the second slot
(`relayer_index = 1`). -/
def orderSlotOne : Order :=
  { fee := 100, relayers := [⟨1, 10⟩, ⟨2, 20⟩], locked_collateral := 100,
    confirm_time := some 15, base_fee := 40 }

/-- State in which every account has recorded collateral 100 and ample
free balance, so any attempted slash transfer would succeed. -/
def richState : PaymentState :=
  { collateral := fun _ => 100, free := fun _ => 1000 }

/-- C1: evaluating the `relayer_index >= 1` branch on a concrete order
confirmed during the second slot (`relayer_index = 1`).  The slot-0
assignee (account 1) occupies a slot earlier than the delivery slot and
has collateral 100 with slash ratio 50% — an expected slash of 50 — and
its transfer would succeed, yet
`order.relayers_slice().into_iter().take(relayer_index - 1)` takes zero
relayers: nothing is slashed, account 1's recorded collateral and free
balance are untouched, and the reward pool stays at the bare fee (the
treasury share is `100 - 40 = 60`, with no slashed amount added). -/
theorem C1_prior_slot_assignee_not_slashed :
    orderSlotOne.delivery_info 15 = some (1, 2, 40) ∧
    scenarioConfig.assignedRelayerSlashRatio.mul (richState.collateral 1) = 50 ∧
    (slashAndCalcOrder scenarioConfig 0 8 9 orderSlotOne richState).2.1 = 0 ∧
    (slashAndCalcOrder scenarioConfig 0 8 9 orderSlotOne richState).2.2.collateral 1 = 100 ∧
    (slashAndCalcOrder scenarioConfig 0 8 9 orderSlotOne richState).2.2.free 1 = 1000 ∧
    (slashAndCalcOrder scenarioConfig 0 8 9 orderSlotOne richState).1.to_treasury = some 60 :=
  ⟨rfl, rfl, rfl, rfl, rfl, rfl⟩

/-! ### Theorems: messages-count check (C2) -/

/-- A storage-proof reader with no values at all. -/
def emptyReader : ProofReader :=
  { readRawMessage := fun _ => none, readRawOutboundLaneData := none }

/-- C2 counterexample: at `nonces_start = 1`, `nonces_end = 0`,
`claimed_count = 5` the mathematical count `end - start + 1 = 0 ≠ 5`, yet
the verifier does not return `MessagesCountMismatch` (the count check is
skipped when `checked_sub` fails and the run ends in `Empty`), so the
claimed equivalence is false at this input. -/
theorem C2_count_check_counterexample :
    ¬ (@verifyMessagesProofWithParser Unit Unit
        (.ok emptyReader) (fun _ => none) (fun _ => none) 1 0 5 =
          .error .MessagesCountMismatch ↔ (0 : Int) - 1 + 1 ≠ 5) := by
  intro hiff
  have h := hiff.mpr (by decide)
  have hres : @verifyMessagesProofWithParser Unit Unit
      (.ok emptyReader) (fun _ => none) (fun _ => none) 1 0 5 =
        .error .Empty := rfl
  rw [hres] at h
  simp at h

/-- Every error produced by the message-reading loop is
`MissingRequiredMessage` or `FailedToDecodeMessage`. -/
theorem readMessages_error_cases {MD : Type} (read : Nat → Option RawBytes)
    (decMsg : RawBytes → Option MD) (ns : List Nat)
    (e : MessageProofError) (h : readMessages read decMsg ns = .error e) :
    e = .MissingRequiredMessage ∨ e = .FailedToDecodeMessage := by
  induction ns with
  | nil => simp [readMessages] at h
  | cons n ns ih =>
    rw [readMessages] at h
    split at h
    · left
      exact (Except.error.inj h).symm
    · split at h
      · right
        exact (Except.error.inj h).symm
      · split at h
        · rename_i e' hm
          cases Except.error.inj h
          exact ih hm
        · exact Except.noConfusion h

/-- After the count check has been passed (or skipped), the verifier can
never fail with `MessagesCountMismatch` — provided the parser builder
itself does not produce that error (the real `build_parser` closures only
produce `Custom` errors). -/
theorem afterCountCheck_ne_countMismatch {MD LS : Type}
    (build : Except MessageProofError ProofReader)
    (decMsg : RawBytes → Option MD) (decLane : RawBytes → Option LS)
    (noncesStart noncesEnd : Nat)
    (hb : ∀ er, build = .error er → er ≠ .MessagesCountMismatch) :
    verifyMessagesAfterCountCheck build decMsg decLane noncesStart noncesEnd ≠
      .error .MessagesCountMismatch := by
  intro h
  unfold verifyMessagesAfterCountCheck at h
  split at h
  · exact absurd (Except.error.inj h) (hb _ rfl)
  · split at h
    · cases Except.error.inj h
      rcases readMessages_error_cases _ _ _ _ (by assumption) with h2 | h2 <;>
        exact MessageProofError.noConfusion h2
    · split at h
      · split at h
        · exact MessageProofError.noConfusion (Except.error.inj h)
        · exact Except.noConfusion h
      · split at h
        · exact MessageProofError.noConfusion (Except.error.inj h)
        · exact Except.noConfusion h

/-- C2 (amended): when `nonces_start ≤ nonces_end`, the verifier returns
`MessagesCountMismatch` iff `nonces_end - nonces_start + 1` differs from
the claimed count; when `nonces_end < nonces_start` the count check is
skipped entirely (the proof is processed as carrying zero messages) and
`MessagesCountMismatch` is never returned.  The hypothesis on `build`
records that the parser builder never itself fails with
`MessagesCountMismatch`, true of the real `build_parser` closures. -/
theorem C2_count_check_amended {MD LS : Type}
    (build : Except MessageProofError ProofReader)
    (decMsg : RawBytes → Option MD) (decLane : RawBytes → Option LS)
    (noncesStart noncesEnd : Nat) (messagesCount : Nat)
    (hb : ∀ er, build = .error er → er ≠ .MessagesCountMismatch) :
    (noncesStart ≤ noncesEnd →
      (verifyMessagesProofWithParser build decMsg decLane noncesStart
          noncesEnd messagesCount = .error .MessagesCountMismatch ↔
        noncesEnd - noncesStart + 1 ≠ messagesCount)) ∧
    (noncesEnd < noncesStart →
      verifyMessagesProofWithParser build decMsg decLane noncesStart
        noncesEnd messagesCount ≠ .error .MessagesCountMismatch) := by
  constructor
  · intro hle
    by_cases hcount : noncesEnd - noncesStart + 1 = messagesCount
    · have hv : verifyMessagesProofWithParser build decMsg decLane noncesStart
          noncesEnd messagesCount =
          verifyMessagesAfterCountCheck build decMsg decLane noncesStart noncesEnd := by
        simp [verifyMessagesProofWithParser, hle, hcount]
      rw [hv]
      simp only [hcount, ne_eq, not_true_eq_false, iff_false]
      exact afterCountCheck_ne_countMismatch build decMsg decLane
        noncesStart noncesEnd hb
    · have hv : verifyMessagesProofWithParser build decMsg decLane noncesStart
          noncesEnd messagesCount = .error .MessagesCountMismatch := by
        simp [verifyMessagesProofWithParser, hle, hcount]
      rw [hv]
      simp [hcount]
  · intro hlt
    have hv : verifyMessagesProofWithParser build decMsg decLane noncesStart
        noncesEnd messagesCount =
        verifyMessagesAfterCountCheck build decMsg decLane noncesStart noncesEnd := by
      simp [verifyMessagesProofWithParser, Nat.not_le.mpr hlt]
    rw [hv]
    exact afterCountCheck_ne_countMismatch build decMsg decLane
      noncesStart noncesEnd hb

theorem C2_count_check_amended_witness :
    @verifyMessagesProofWithParser Unit Unit (.ok emptyReader)
      (fun _ => none) (fun _ => none) 1 2 5 = .error .MessagesCountMismatch :=
  ((@C2_count_check_amended Unit Unit (.ok emptyReader)
      (fun _ => none) (fun _ => none) 1 2 5
      (fun er h => by simp at h)).1 (by decide)).mpr (by decide)

/-! ### Theorems: all-or-nothing proof verification (C7) -/

/-- A storage-proof reader holding a (garbage) value for nonce 1 only. -/
def garbageAtOneReader : ProofReader :=
  { readRawMessage := fun n => if n = 1 then some [7] else none,
    readRawOutboundLaneData := none }

/-- C7 counterexample: with nonces 1..2 claimed (count 2), nonce 1
present but malformed and nonce 2 absent, the verifier returns
`FailedToDecodeMessage` — not `MissingRequiredMessage`, although nonce 2
is a nonce in the range with no value in the proof, so the claim's
`MissingRequiredMessage` clause is false at this input. -/
theorem C7_first_defect_counterexample :
    garbageAtOneReader.readRawMessage 2 = none ∧ 2 ∈ nonceRange 1 2 ∧
    @verifyMessagesProofWithParser Unit Unit
      (.ok garbageAtOneReader) (fun _ => none) (fun _ => none) 1 2 2 =
        .error .FailedToDecodeMessage ∧
    @verifyMessagesProofWithParser Unit Unit
      (.ok garbageAtOneReader) (fun _ => none) (fun _ => none) 1 2 2 ≠
        .error .MissingRequiredMessage := by
  refine ⟨rfl, by decide, rfl, ?_⟩
  intro hcontra
  have hres : @verifyMessagesProofWithParser Unit Unit
      (.ok garbageAtOneReader) (fun _ => none) (fun _ => none) 1 2 2 =
        .error .FailedToDecodeMessage := rfl
  rw [hres] at hcontra
  simp at hcontra

/-- The first defect the message-reading loop hits on a nonce list:
`none` when every nonce has a present, decodable value. -/
def firstReadDefect {MD : Type} (read : Nat → Option RawBytes)
    (decMsg : RawBytes → Option MD) :
    List Nat → Option MessageProofError
  | [] => none
  | n :: ns =>
    match read n with
    | none => some .MissingRequiredMessage
    | some raw =>
      match decMsg raw with
      | none => some .FailedToDecodeMessage
      | some _ => firstReadDefect read decMsg ns

/-- The message-reading loop fails with exactly the first defect. -/
theorem readMessages_of_defect {MD : Type} (read : Nat → Option RawBytes)
    (decMsg : RawBytes → Option MD) (ns : List Nat)
    (e : MessageProofError)
    (h : firstReadDefect read decMsg ns = some e) :
    readMessages read decMsg ns = .error e := by
  induction ns with
  | nil => simp [firstReadDefect] at h
  | cons n ns ih =>
    rw [firstReadDefect] at h
    cases hr : read n with
    | none =>
      simp only [hr, Option.some.injEq] at h
      simp [readMessages, hr, h]
    | some raw =>
      simp only [hr] at h
      cases hd : decMsg raw with
      | none =>
        simp only [hd, Option.some.injEq] at h
        simp [readMessages, hr, hd, h]
      | some md =>
        simp only [hd] at h
        simp [readMessages, hr, hd, ih h]

/-- When no nonce is defective, the message-reading loop succeeds with
one decoded message per nonce. -/
theorem readMessages_of_no_defect {MD : Type} (read : Nat → Option RawBytes)
    (decMsg : RawBytes → Option MD) (ns : List Nat)
    (h : firstReadDefect read decMsg ns = none) :
    ∃ msgs, readMessages read decMsg ns = .ok msgs ∧ msgs.length = ns.length := by
  induction ns with
  | nil => exact ⟨[], rfl, rfl⟩
  | cons n ns ih =>
    rw [firstReadDefect] at h
    cases hr : read n with
    | none => rw [hr] at h; exact Option.noConfusion h
    | some raw =>
      simp only [hr] at h
      cases hd : decMsg raw with
      | none =>
        simp only [hd] at h
        exact Option.noConfusion h
      | some md =>
        simp only [hd] at h
        obtain ⟨msgs, hm, hl⟩ := ih h
        exact ⟨(n, md) :: msgs, by simp [readMessages, hr, hd, hm], by simp [hl]⟩

/-- C7 (amended): with a successfully built parser and a passing count
check, the verifier is all-or-nothing with first-defect precedence:
it fails with `MissingRequiredMessage` (resp. `FailedToDecodeMessage`)
when the first defective nonce of the range is absent (resp. present but
malformed); when every message reads and decodes, a present but
malformed outbound lane state fails the whole proof with
`FailedToDecodeOutboundLaneState`; with no message defect and no lane
state at all, the proof fails `Empty` exactly when the claimed range is
empty (`nonces_end < nonces_start`); and a successful run implies there
was no defect of any kind, so any single defect yields an error and no
messages are returned. -/
theorem C7_all_or_nothing (reader : ProofReader) {MD LS : Type}
    (decMsg : RawBytes → Option MD) (decLane : RawBytes → Option LS)
    (noncesStart noncesEnd : Nat) (messagesCount : Nat)
    (hcount : noncesStart ≤ noncesEnd →
      noncesEnd - noncesStart + 1 = messagesCount) :
    (∀ e, firstReadDefect reader.readRawMessage decMsg
        (nonceRange noncesStart noncesEnd) = some e →
      verifyMessagesProofWithParser (.ok reader) decMsg decLane noncesStart
        noncesEnd messagesCount = .error e) ∧
    (firstReadDefect reader.readRawMessage decMsg
        (nonceRange noncesStart noncesEnd) = none →
      ∀ raw, reader.readRawOutboundLaneData = some raw → decLane raw = none →
      verifyMessagesProofWithParser (.ok reader) decMsg decLane noncesStart
        noncesEnd messagesCount = .error .FailedToDecodeOutboundLaneState) ∧
    (firstReadDefect reader.readRawMessage decMsg
        (nonceRange noncesStart noncesEnd) = none →
      reader.readRawOutboundLaneData = none →
      (verifyMessagesProofWithParser (.ok reader) decMsg decLane noncesStart
          noncesEnd messagesCount = .error .Empty ↔
        noncesEnd < noncesStart)) ∧
    (∀ out, verifyMessagesProofWithParser (.ok reader) decMsg decLane
        noncesStart noncesEnd messagesCount = .ok out →
      firstReadDefect reader.readRawMessage decMsg
        (nonceRange noncesStart noncesEnd) = none ∧
      (∀ raw, reader.readRawOutboundLaneData = some raw →
        ∃ ls, decLane raw = some ls) ∧
      ¬ (noncesEnd < noncesStart ∧ reader.readRawOutboundLaneData = none)) := by
  have hv : verifyMessagesProofWithParser (.ok reader) decMsg decLane
      noncesStart noncesEnd messagesCount =
      verifyMessagesAfterCountCheck (.ok reader) decMsg decLane noncesStart
        noncesEnd := by
    by_cases hle : noncesStart ≤ noncesEnd
    · simp [verifyMessagesProofWithParser, hle, hcount hle]
    · simp [verifyMessagesProofWithParser, hle]
  have hlen : (nonceRange noncesStart noncesEnd).length =
      noncesEnd + 1 - noncesStart := by
    simp [nonceRange]
  have h1 : ∀ e, firstReadDefect reader.readRawMessage decMsg
      (nonceRange noncesStart noncesEnd) = some e →
      verifyMessagesProofWithParser (.ok reader) decMsg decLane noncesStart
        noncesEnd messagesCount = .error e := by
    intro e hdef
    rw [hv]
    simp [verifyMessagesAfterCountCheck,
      readMessages_of_defect _ _ _ _ hdef]
  have h2 : firstReadDefect reader.readRawMessage decMsg
      (nonceRange noncesStart noncesEnd) = none →
      ∀ raw, reader.readRawOutboundLaneData = some raw → decLane raw = none →
      verifyMessagesProofWithParser (.ok reader) decMsg decLane noncesStart
        noncesEnd messagesCount = .error .FailedToDecodeOutboundLaneState := by
    intro hdef raw hlane hdl
    rw [hv]
    obtain ⟨msgs, hm, -⟩ := readMessages_of_no_defect _ _ _ hdef
    simp [verifyMessagesAfterCountCheck, hm, hlane, hdl]
  have h3 : firstReadDefect reader.readRawMessage decMsg
      (nonceRange noncesStart noncesEnd) = none →
      reader.readRawOutboundLaneData = none →
      (verifyMessagesProofWithParser (.ok reader) decMsg decLane noncesStart
          noncesEnd messagesCount = .error .Empty ↔
        noncesEnd < noncesStart) := by
    intro hdef hlane
    rw [hv]
    obtain ⟨msgs, hm, hl⟩ := readMessages_of_no_defect _ _ _ hdef
    have hml : msgs.length = noncesEnd + 1 - noncesStart := hl.trans hlen
    by_cases hlt : noncesEnd < noncesStart
    · have hempty : msgs = [] := List.eq_nil_of_length_eq_zero (by omega)
      simp [verifyMessagesAfterCountCheck, hm, hlane, hempty, hlt]
    · have hpos : msgs.length ≠ 0 := by omega
      have hne : msgs.isEmpty = false := by
        cases msgs with
        | nil => exact absurd rfl hpos
        | cons a l => rfl
      simp [verifyMessagesAfterCountCheck, hm, hlane, hne, hlt]
  have h4 : ∀ out, verifyMessagesProofWithParser (.ok reader) decMsg decLane
      noncesStart noncesEnd messagesCount = .ok out →
      firstReadDefect reader.readRawMessage decMsg
        (nonceRange noncesStart noncesEnd) = none ∧
      (∀ raw, reader.readRawOutboundLaneData = some raw →
        ∃ ls, decLane raw = some ls) ∧
      ¬ (noncesEnd < noncesStart ∧ reader.readRawOutboundLaneData = none) := by
    intro out hok
    have hdef : firstReadDefect reader.readRawMessage decMsg
        (nonceRange noncesStart noncesEnd) = none := by
      cases hd : firstReadDefect reader.readRawMessage decMsg
          (nonceRange noncesStart noncesEnd) with
      | none => rfl
      | some e => rw [h1 e hd] at hok; exact Except.noConfusion hok
    refine ⟨hdef, ?_, ?_⟩
    · intro raw hlane
      cases hdl : decLane raw with
      | none => rw [h2 hdef raw hlane hdl] at hok; exact Except.noConfusion hok
      | some ls => exact ⟨ls, rfl⟩
    · rintro ⟨hlt, hlane⟩
      rw [(h3 hdef hlane).mpr hlt] at hok
      exact Except.noConfusion hok
  exact ⟨h1, h2, h3, h4⟩

theorem C7_all_or_nothing_witness :
    @verifyMessagesProofWithParser Unit Unit (.ok emptyReader)
      (fun _ => none) (fun _ => none) 1 1 1 = .error .MissingRequiredMessage :=
  (C7_all_or_nothing emptyReader (fun _ => none) (fun _ => none) 1 1 1
    (fun _ => rfl)).1 .MissingRequiredMessage rfl

theorem C3_verify_message_origin_witness :
    ∃ v, verify_message_origin .Root
      ⟨1, 2, .SourceRoot, .AtSourceChain, []⟩ = .ok v :=
  (C3_verify_message_origin .Root
    ⟨1, 2, .SourceRoot, .AtSourceChain, []⟩).1.mpr (.inl ⟨rfl, rfl⟩)

/-! ### Theorems: reward conservation (C4) -/

/-- The amount of an optional (recipient, amount) payout. -/
def optAmount : Option (AccountId × Nat) → Nat
  | none => 0
  | some (_, b) => b

/-- Total amount paid out by one `RewardItem`. -/
def RewardItem.payout (item : RewardItem) : Nat :=
  optAmount item.to_slot_relayer + item.to_treasury.getD 0 +
    optAmount item.to_message_relayer + optAmount item.to_confirm_relayer

/-- Total amount paid out by a list of `RewardItem`s. -/
def payoutSum (items : List RewardItem) : Nat :=
  (items.map RewardItem.payout).sum

theorem payoutSum_nil : payoutSum [] = 0 := rfl

theorem payoutSum_cons (item : RewardItem) (items : List RewardItem) :
    payoutSum (item :: items) = item.payout + payoutSum items := by
  simp [payoutSum]

theorem payoutSum_append (a b : List RewardItem) :
    payoutSum (a ++ b) = payoutSum a + payoutSum b := by
  simp [payoutSum]

/-- A well-formed ratio of at most one never enlarges its argument. -/
theorem Ratio.mul_le (r : Ratio) (h : r.Wf) (x : Nat) : r.mul x ≤ x := by
  obtain ⟨hd, hn⟩ := h
  unfold Ratio.mul
  calc r.num * x / r.den ≤ r.den * x / r.den :=
        Nat.div_le_div_right (Nat.mul_le_mul_right x hn)
    _ = x := Nat.mul_div_cancel_left x hd

/-- Splitting an amount by two complementary ratios loses at most one
rounding unit and never exceeds the amount. -/
theorem ratio_split_bounds (p q : Ratio) (hd : p.den = q.den)
    (hs : p.num + q.num = p.den) (hden : 0 < p.den) (b : Nat) :
    p.mul b + q.mul b ≤ b ∧ b ≤ p.mul b + q.mul b + 1 := by
  unfold Ratio.mul
  rw [← hd]
  have key : p.num * b + q.num * b = p.den * b := by
    rw [← Nat.add_mul, hs]
  have hadd := @Nat.add_div (p.num * b) (q.num * b) p.den hden
  rw [key, Nat.mul_div_cancel_left b hden] at hadd
  split at hadd <;> omega

/-- The in-deadline reward item pays out the whole pool up to one
rounding unit. -/
theorem cal_before_payout_bounds (cfg : FeeMarketConfig)
    (s m c : AccountId) (T bf : Nat) (hbfT : bf ≤ T)
    (har : cfg.assignedRelayersRewardRatio.Wf)
    (hd : cfg.messageRelayersRewardRatio.den =
      cfg.confirmRelayersRewardRatio.den)
    (hs : cfg.messageRelayersRewardRatio.num +
      cfg.confirmRelayersRewardRatio.num = cfg.messageRelayersRewardRatio.den)
    (hden : 0 < cfg.messageRelayersRewardRatio.den) :
    (cal_rewards_before_deadline cfg s m c T bf RewardItem.new).payout ≤ T ∧
    T ≤ (cal_rewards_before_deadline cfg s m c T bf RewardItem.new).payout + 1 := by
  have hsl := Ratio.mul_le cfg.assignedRelayersRewardRatio har bf
  have hsplit := ratio_split_bounds cfg.messageRelayersRewardRatio
    cfg.confirmRelayersRewardRatio hd hs hden
    (bf - cfg.assignedRelayersRewardRatio.mul bf)
  simp only [cal_rewards_before_deadline, RewardItem.payout, RewardItem.new,
    optAmount, Option.getD_some]
  omega

/-- The after-deadline reward item pays out the whole pool up to one
rounding unit. -/
theorem cal_after_payout_bounds (cfg : FeeMarketConfig)
    (m c : AccountId) (T : Nat)
    (hd : cfg.messageRelayersRewardRatio.den =
      cfg.confirmRelayersRewardRatio.den)
    (hs : cfg.messageRelayersRewardRatio.num +
      cfg.confirmRelayersRewardRatio.num = cfg.messageRelayersRewardRatio.den)
    (hden : 0 < cfg.messageRelayersRewardRatio.den) :
    (cal_reward_after_deadline cfg m c T RewardItem.new).payout ≤ T ∧
    T ≤ (cal_reward_after_deadline cfg m c T RewardItem.new).payout + 1 := by
  have hsplit := ratio_split_bounds cfg.messageRelayersRewardRatio
    cfg.confirmRelayersRewardRatio hd hs hden T
  simp only [cal_reward_after_deadline, RewardItem.payout, RewardItem.new,
    optAmount, Option.getD_none]
  omega

/-- The lazy-relayer slashing loop only ever adds to the reward pool. -/
theorem slashLazyRelayersLoop_ge (cfg : FeeMarketConfig) (fund : AccountId)
    (rs : List AssignedRelayer) :
    ∀ tr st, tr ≤ (slashLazyRelayersLoop cfg fund rs tr st).1 := by
  induction rs with
  | nil => intro tr st; simp [slashLazyRelayersLoop]
  | cons r rest ih =>
    intro tr st
    simp only [slashLazyRelayersLoop]
    exact le_trans (Nat.le_add_right tr _) (ih _ _)

/-- The out-of-deadline slashing loop only ever adds to the reward pool. -/
theorem slashAllRelayersLoop_ge (cfg : FeeMarketConfig) (fund : AccountId)
    (rs : List AssignedRelayer) :
    ∀ sa tr st, tr ≤ (slashAllRelayersLoop cfg fund rs sa tr st).1 := by
  induction rs with
  | nil => intro sa tr st; simp [slashAllRelayersLoop]
  | cons r rest ih =>
    intro sa tr st
    simp only [slashAllRelayersLoop]
    exact le_trans (Nat.le_add_right tr _) (ih _ _ _)

/-- `delivery_info` always reports the order's base fee. -/
theorem delivery_info_base_fee (o : Order) (t i : Nat) (id : AccountId)
    (bf : Nat) (h : o.delivery_info t = some (i, id, bf)) :
    bf = o.base_fee := by
  unfold Order.delivery_info at h
  cases hf : o.relayers.findIdx? (fun r => t ≤ r.deadline) with
  | none => rw [hf] at h; exact Option.noConfusion h
  | some j =>
    simp only [hf, Option.some.injEq, Prod.mk.injEq] at h
    exact h.2.2.symm

/-- One order's reward item pays out the order's fee plus whatever was
actually slashed for it, up to one rounding unit. -/
theorem slashAndCalcOrder_payout_bounds (cfg : FeeMarketConfig)
    (fund mR cR : AccountId) (order : Order) (st : PaymentState)
    (har : cfg.assignedRelayersRewardRatio.Wf)
    (hd : cfg.messageRelayersRewardRatio.den =
      cfg.confirmRelayersRewardRatio.den)
    (hs : cfg.messageRelayersRewardRatio.num +
      cfg.confirmRelayersRewardRatio.num = cfg.messageRelayersRewardRatio.den)
    (hden : 0 < cfg.messageRelayersRewardRatio.den)
    (hbf : order.base_fee ≤ order.fee) :
    (slashAndCalcOrder cfg fund mR cR order st).1.payout ≤
      order.fee + (slashAndCalcOrder cfg fund mR cR order st).2.1 ∧
    order.fee + (slashAndCalcOrder cfg fund mR cR order st).2.1 ≤
      (slashAndCalcOrder cfg fund mR cR order st).1.payout + 1 := by
  unfold slashAndCalcOrder
  cases hinfo : order.delivery_info (order.confirm_time.getD cfg.currentBlock) with
  | none =>
    simp only [hinfo]
    have hge := slashAllRelayersLoop_ge cfg fund order.relayers
      (cfg.slasher order.locked_collateral (order.delivery_delay.getD 0))
      order.fee st
    have hb := cal_after_payout_bounds cfg mR cR
      (slashAllRelayersLoop cfg fund order.relayers
        (cfg.slasher order.locked_collateral (order.delivery_delay.getD 0))
        order.fee st).1 hd hs hden
    constructor <;> omega
  | some info =>
    obtain ⟨i, slotId, bf⟩ := info
    have hbfe : bf = order.base_fee := delivery_info_base_fee order _ i slotId bf hinfo
    cases i with
    | zero =>
      simp only [hinfo]
      have hbf' : bf ≤ order.fee := by omega
      have hb := cal_before_payout_bounds cfg slotId mR cR order.fee bf hbf'
        har hd hs hden
      constructor <;> omega
    | succ k =>
      simp only [hinfo]
      have hge := slashLazyRelayersLoop_ge cfg fund
        (order.relayers.take (Nat.succ k - 1)) order.fee st
      have hbfT : bf ≤ (slashLazyRelayersLoop cfg fund
          (order.relayers.take (Nat.succ k - 1)) order.fee st).1 := by omega
      have hb := cal_before_payout_bounds cfg slotId mR cR
        (slashLazyRelayersLoop cfg fund (order.relayers.take (Nat.succ k - 1))
          order.fee st).1 bf hbfT har hd hs hden
      constructor <;> omega

/-- Conservation over the inner nonce loop. -/
theorem processNonces_payout_bounds (cfg : FeeMarketConfig)
    (orders : Nat → Option Order) (fund mR cR : AccountId)
    (har : cfg.assignedRelayersRewardRatio.Wf)
    (hd : cfg.messageRelayersRewardRatio.den =
      cfg.confirmRelayersRewardRatio.den)
    (hs : cfg.messageRelayersRewardRatio.num +
      cfg.confirmRelayersRewardRatio.num = cfg.messageRelayersRewardRatio.den)
    (hden : 0 < cfg.messageRelayersRewardRatio.den)
    (hbf : ∀ n o, orders n = some o → o.base_fee ≤ o.fee) :
    ∀ ns st,
      payoutSum (processNonces cfg orders fund mR cR ns st).1 ≤
        (processNonces cfg orders fund mR cR ns st).2.1 +
          (processNonces cfg orders fund mR cR ns st).2.2.1 ∧
      (processNonces cfg orders fund mR cR ns st).2.1 +
          (processNonces cfg orders fund mR cR ns st).2.2.1 ≤
        payoutSum (processNonces cfg orders fund mR cR ns st).1 +
          (processNonces cfg orders fund mR cR ns st).1.length := by
  intro ns
  induction ns with
  | nil => intro st; simp [processNonces, payoutSum]
  | cons n ns ih =>
    intro st
    cases ho : orders n with
    | none =>
      simp only [processNonces, ho]
      exact ih st
    | some order =>
      simp only [processNonces, ho]
      have hb := slashAndCalcOrder_payout_bounds cfg fund mR cR order st
        har hd hs hden (hbf n order ho)
      have ihh := ih (slashAndCalcOrder cfg fund mR cR order st).2.2
      simp only [payoutSum_cons, List.length_cons]
      omega

/-- Conservation over the outer entry loop. -/
theorem processEntries_payout_bounds (cfg : FeeMarketConfig)
    (orders : Nat → Option Order) (fund cR : AccountId)
    (rangeStart rangeEnd : Nat)
    (har : cfg.assignedRelayersRewardRatio.Wf)
    (hd : cfg.messageRelayersRewardRatio.den =
      cfg.confirmRelayersRewardRatio.den)
    (hs : cfg.messageRelayersRewardRatio.num +
      cfg.confirmRelayersRewardRatio.num = cfg.messageRelayersRewardRatio.den)
    (hden : 0 < cfg.messageRelayersRewardRatio.den)
    (hbf : ∀ n o, orders n = some o → o.base_fee ≤ o.fee) :
    ∀ entries st,
      payoutSum (processEntries cfg orders fund cR rangeStart rangeEnd entries st).1 ≤
        (processEntries cfg orders fund cR rangeStart rangeEnd entries st).2.1 +
          (processEntries cfg orders fund cR rangeStart rangeEnd entries st).2.2.1 ∧
      (processEntries cfg orders fund cR rangeStart rangeEnd entries st).2.1 +
          (processEntries cfg orders fund cR rangeStart rangeEnd entries st).2.2.1 ≤
        payoutSum (processEntries cfg orders fund cR rangeStart rangeEnd entries st).1 +
          (processEntries cfg orders fund cR rangeStart rangeEnd entries st).1.length := by
  intro entries
  induction entries with
  | nil => intro st; simp [processEntries, payoutSum]
  | cons entry rest ih =>
    intro st
    simp only [processEntries]
    have h1 := processNonces_payout_bounds cfg orders fund entry.relayer cR
      har hd hs hden hbf
      (nonceRange (max entry.messages_begin rangeStart)
        (min entry.messages_end rangeEnd)) st
    have h2 := ih (processNonces cfg orders fund entry.relayer cR
      (nonceRange (max entry.messages_begin rangeStart)
        (min entry.messages_end rangeEnd)) st).2.2.2
    simp only [payoutSum_append, List.length_append]
    omega

/-- C4: over any batch processed by `slash_and_calculate_rewards`, the
sum of the produced `RewardItem` payouts (slot relayer + treasury +
message relayer + confirmation relayer) equals the sum of the processed
orders' fees plus the collateral actually slashed, up to rounding: the
payouts never exceed the pool, and fall short of it by at most one
rounding unit per reward item. -/
theorem C4_reward_conservation (cfg : FeeMarketConfig)
    (orders : Nat → Option Order) (entries : List UnrewardedRelayerEntry)
    (confirmRelayer : AccountId) (rangeStart rangeEnd : Nat)
    (fund : AccountId) (st : PaymentState)
    (har : cfg.assignedRelayersRewardRatio.Wf)
    (hd : cfg.messageRelayersRewardRatio.den =
      cfg.confirmRelayersRewardRatio.den)
    (hs : cfg.messageRelayersRewardRatio.num +
      cfg.confirmRelayersRewardRatio.num = cfg.messageRelayersRewardRatio.den)
    (hden : 0 < cfg.messageRelayersRewardRatio.den)
    (hbf : ∀ n o, orders n = some o → o.base_fee ≤ o.fee) :
    payoutSum (slash_and_calculate_rewards cfg orders entries confirmRelayer
        rangeStart rangeEnd fund st).2.1 ≤
      (slash_and_calculate_rewards cfg orders entries confirmRelayer
        rangeStart rangeEnd fund st).2.2.1 +
      (slash_and_calculate_rewards cfg orders entries confirmRelayer
        rangeStart rangeEnd fund st).2.2.2.1 ∧
    (slash_and_calculate_rewards cfg orders entries confirmRelayer
        rangeStart rangeEnd fund st).2.2.1 +
      (slash_and_calculate_rewards cfg orders entries confirmRelayer
        rangeStart rangeEnd fund st).2.2.2.1 ≤
    payoutSum (slash_and_calculate_rewards cfg orders entries confirmRelayer
        rangeStart rangeEnd fund st).2.1 +
      (slash_and_calculate_rewards cfg orders entries confirmRelayer
        rangeStart rangeEnd fund st).2.1.length := by
  have h := processEntries_payout_bounds cfg orders fund confirmRelayer
    rangeStart rangeEnd har hd hs hden hbf entries st
  simpa [slash_and_calculate_rewards] using h

/-- The one-order orders map for the conservation witness. -/
def scenarioOrders : Nat → Option Order :=
  fun n => if n = 1 then some scenarioOrder else none

theorem C4_reward_conservation_witness :
    payoutSum (slash_and_calculate_rewards scenarioConfig scenarioOrders
        [⟨8, 1, 1⟩] 9 1 1 0 zeroState).2.1 ≤
      (slash_and_calculate_rewards scenarioConfig scenarioOrders
        [⟨8, 1, 1⟩] 9 1 1 0 zeroState).2.2.1 +
      (slash_and_calculate_rewards scenarioConfig scenarioOrders
        [⟨8, 1, 1⟩] 9 1 1 0 zeroState).2.2.2.1 ∧
    (slash_and_calculate_rewards scenarioConfig scenarioOrders
        [⟨8, 1, 1⟩] 9 1 1 0 zeroState).2.2.1 +
      (slash_and_calculate_rewards scenarioConfig scenarioOrders
        [⟨8, 1, 1⟩] 9 1 1 0 zeroState).2.2.2.1 ≤
    payoutSum (slash_and_calculate_rewards scenarioConfig scenarioOrders
        [⟨8, 1, 1⟩] 9 1 1 0 zeroState).2.1 +
      (slash_and_calculate_rewards scenarioConfig scenarioOrders
        [⟨8, 1, 1⟩] 9 1 1 0 zeroState).2.1.length :=
  C4_reward_conservation scenarioConfig scenarioOrders [⟨8, 1, 1⟩] 9 1 1 0
    zeroState ⟨by decide, by decide⟩ (by decide) (by decide) (by decide)
    (fun n o h => by
      by_cases hn : n = 1
      · simp [scenarioOrders, hn] at h
        rw [← h]
        decide
      · simp [scenarioOrders, hn] at h)

end BridgeSpec
